import Mathlib

/-!
# go-enjin/enjenv, `pkg/cpuinfo/wrapper.c`

A shallow embedding of the four readers of `wrapper.c` (`read_cpu_tick`,
`read_time_from_pid`, `read_stat_from_pid`, `num_cores`) and of the part of the
C library function `fscanf` that their format strings use.

Conventions of the embedding.

* A file is the list of its bytes, each written as the character of that code;
  `fopen` is a lookup that gives `none` when the file cannot be opened.
* The data model is LP64 Linux: `int` has 32 bits, `long`, `unsigned long` and
  `unsigned long long` have 64 bits, `unsigned int` has 32 bits.
* A call whose behaviour ISO C leaves undefined has the result `none`: a
  converted value that the type of the conversion cannot represent, a `%s` item
  longer than its buffer, a conversion that stores an integer of another width
  than the object its pointer argument points to. Types of the same signedness
  and width are one type of object.
* `fscanf` reports `EOF` as glibc and musl do: when the input ends (input
  failure) and no item has been assigned yet.
-/

namespace Cpuinfo

/-! ## The C library: `isspace` and `fscanf`

The model of `fscanf` follows ISO C 7.21.6.2 for the directives that occur in
`wrapper.c`. A format is a sequence of directives, executed in order until one
fails. A white-space directive reads input up to the first character that is
not white space, and never fails. An ordinary character must be the next input
character. A conversion `%d`, `%u` or `%s` first skips white space, `%c` does
not. A directive fails with an input failure when the input has ended, and with
a matching failure when the next characters do not fit. `*` suppresses the
assignment, a number after `%` or `*` is the maximum field width. -/

/-- C `isspace` in the "C" locale: space, `\t`, `\n`, `\v`, `\f`, `\r`. -/
def isspace (c : Char) : Bool :=
  c = ' ' || (9 ≤ c.toNat && c.toNat ≤ 13)

/-- The kinds of conversion the format strings of `wrapper.c` use. -/
inductive ConvKind
  | signed
  | unsigned
  | str
  | chr
  deriving DecidableEq, Repr

/-- One directive of a `scanf` format: white space, an ordinary character, or a
conversion specification `%[*][width][l|ll](d|u|s|c)`. -/
inductive Directive
  | space
  | lit (c : Char)
  | conv (suppress : Bool) (width : Option Nat) (longs : Nat) (kind : ConvKind)
  | unsupported
  deriving DecidableEq, Repr

/-- State of the format reader: in ordinary text, or inside a conversion
specification after `%`. -/
inductive FmtState
  | text
  | spec (suppress : Bool) (width : Option Nat) (longs : Nat)
  deriving DecidableEq, Repr

/-- Reads a format string into its directives. -/
def parseFormat : FmtState → List Char → List Directive
  | .text, [] => []
  | .spec _ _ _, [] => [.unsupported]
  | .text, c :: cs =>
    if c = '%' then parseFormat (.spec false none 0) cs
    else if isspace c then .space :: parseFormat .text cs
    else .lit c :: parseFormat .text cs
  | .spec sup w l, c :: cs =>
    if c = '*' then parseFormat (.spec true w l) cs
    else if c.isDigit then
      parseFormat (.spec sup (some (w.getD 0 * 10 + (c.toNat - 48))) l) cs
    else if c = 'l' then parseFormat (.spec sup w (l + 1)) cs
    else if c = 'd' then .conv sup w l .signed :: parseFormat .text cs
    else if c = 'u' then .conv sup w l .unsigned :: parseFormat .text cs
    else if c = 's' then .conv sup w l .str :: parseFormat .text cs
    else if c = 'c' then .conv sup w l .chr :: parseFormat .text cs
    else [.unsupported]

/-- An input item that was assigned to an argument: the result `v` of a `%d` or
`%u` conversion together with the signedness and width of the integer type the
conversion stores, the word of a `%s` conversion (stored with a terminating null
character), or the characters of a `%c` conversion. -/
inductive Val
  | int (signed : Bool) (bits : Nat) (v : Int)
  | str (s : List Char)
  | chars (s : List Char)
  deriving DecidableEq, Repr

/-- The object behind a pointer argument of `fscanf`, as far as the LP64 data
model tells objects apart: an integer object of given signedness and width, or
an array of `size` characters. -/
inductive CObj
  | integer (signed : Bool) (bits : Nat)
  | array (size : Nat)
  deriving DecidableEq, Repr

/-- C type `int`. -/
def c_int : CObj := .integer true 32

/-- C type `unsigned long`. -/
def c_unsigned_long : CObj := .integer false 64

/-- C type `unsigned long long`. -/
def c_unsigned_long_long : CObj := .integer false 64

/-- Whether the store of an assigned item is a store into the object behind its
pointer argument: an integer of the signedness and width of the conversion, or
an array that holds the characters (and the null character after a word). -/
def storeFits : CObj → Val → Bool
  | .integer sg b, .int s bits _ => sg = s && b = bits
  | .array size, .str w => w.length + 1 ≤ size
  | .array size, .chars w => w.length ≤ size
  | _, _ => false

/-- Whether every assigned item is stored into the object behind the pointer
argument of its position. -/
def allFit : List CObj → List Val → Bool
  | _, [] => true
  | [], _ :: _ => false
  | o :: os, v :: vs => storeFits o v && allFit os vs

/-- Skips leading white space of the input. -/
def skipSpace : List Char → List Char
  | [] => []
  | c :: cs => if isspace c then skipSpace cs else c :: cs

/-- The longest run of leading decimal digits, at most `w` of them when a field
width remains; gives the run and the rest of the input. -/
def takeDigits : Option Nat → List Char → List Char × List Char
  | _, [] => ([], [])
  | w, c :: cs =>
    if w = some 0 then ([], c :: cs)
    else if c.isDigit then
      ((c :: (takeDigits (w.map (· - 1)) cs).1), (takeDigits (w.map (· - 1)) cs).2)
    else ([], c :: cs)

/-- The longest run of leading non-white-space characters, at most `w` of them
when a field width is given. -/
def takeWord : Option Nat → List Char → List Char × List Char
  | _, [] => ([], [])
  | w, c :: cs =>
    if w = some 0 then ([], c :: cs)
    else if isspace c then ([], c :: cs)
    else ((c :: (takeWord (w.map (· - 1)) cs).1), (takeWord (w.map (· - 1)) cs).2)

/-- Value of a run of decimal digits. -/
def decVal (ds : List Char) : Nat :=
  ds.foldl (fun a c => a * 10 + (c.toNat - 48)) 0

/-- Number of value bits of the integer type a length modifier selects:
`int` without modifier, `long` or `long long` with `l` or `ll`. -/
def intBits (longs : Nat) : Nat := if longs = 0 then 32 else 64

/-- Result of converting a signed decimal item (as `strtol`, `strtoul` do) to
the type of the conversion; `none` when the type cannot represent it. An
unsigned conversion of an item with a minus sign negates in the unsigned type. -/
def convertInt (signed : Bool) (bits : Nat) (neg : Bool) (m : Nat) : Option Int :=
  if signed then
    let v : Int := if neg then -(m : Int) else (m : Int)
    if -(2 : Int) ^ (bits - 1) ≤ v ∧ v < (2 : Int) ^ (bits - 1) then some v else none
  else
    if m < 2 ^ bits then
      some (((if neg then (2 ^ bits - m) % 2 ^ bits else m : Nat) : Int))
    else none

/-- Outcome of one directive. -/
inductive Step
  | ok (item : Option Val) (rest : List Char)
  | matchFail
  | inputFail
  | undefined
  deriving DecidableEq, Repr

/-- Conversions `%d` and `%u`: skip white space, fail with an input failure at the
end of the input, read an optional sign and then decimal digits within the
field width, fail with a matching failure when there is no digit. -/
def scanNumber (sup : Bool) (w : Option Nat) (longs : Nat) (signed : Bool)
    (inp : List Char) : Step :=
  match skipSpace inp with
  | [] => .inputFail
  | c :: cs =>
    let hasSign : Bool := c = '-' || c = '+'
    let r := if hasSign then takeDigits (w.map (· - 1)) cs else takeDigits w (c :: cs)
    if r.1.isEmpty then .matchFail
    else if sup then .ok none r.2
    else
      match convertInt signed (intBits longs) (c = '-') (decVal r.1) with
      | some v => .ok (some (.int signed (intBits longs) v)) r.2
      | none => .undefined

/-- Conversion `%s`: skip white space, fail with an input failure at end of
input, read the following non-white-space characters. -/
def scanString (sup : Bool) (w : Option Nat) (inp : List Char) : Step :=
  match skipSpace inp with
  | [] => .inputFail
  | c :: cs =>
    if sup then .ok none (takeWord w (c :: cs)).2
    else .ok (some (.str (takeWord w (c :: cs)).1)) (takeWord w (c :: cs)).2

/-- Conversion `%c`: no white space is skipped; reads `width` characters (one by
default), fails with an input failure at end of input. -/
def scanChars (sup : Bool) (w : Option Nat) (inp : List Char) : Step :=
  match inp with
  | [] => .inputFail
  | c :: cs =>
    if sup then .ok none ((c :: cs).drop (w.getD 1))
    else .ok (some (.chars ((c :: cs).take (w.getD 1)))) ((c :: cs).drop (w.getD 1))

/-- Executes one directive on the input. -/
def step : Directive → List Char → Step
  | .space, inp => .ok none (skipSpace inp)
  | .lit c, inp =>
    match inp with
    | [] => .inputFail
    | x :: rest => if x = c then .ok none rest else .matchFail
  | .conv sup w l .signed, inp => scanNumber sup w l true inp
  | .conv sup w l .unsigned, inp => scanNumber sup w l false inp
  | .conv sup w _ .str, inp => scanString sup w inp
  | .conv sup w _ .chr, inp => scanChars sup w inp
  | .unsupported, _ => .undefined

/-- How a scan ended. -/
inductive Ending
  | complete
  | matchFail
  | inputFail
  | undefined
  deriving DecidableEq, Repr

/-- Puts the item a directive assigned, if any, before the items of the rest of
the scan. -/
def addItem (item : Option Val) (r : List Val × Ending) : List Val × Ending :=
  (item.toList ++ r.1, r.2)

/-- Executes the directives in order until one fails; gives the assigned items
in order and how the scan ended. -/
def scanDirs : List Directive → List Char → List Val × Ending
  | [], _ => ([], .complete)
  | d :: ds, inp =>
    match step d inp with
    | .ok item rest => addItem item (scanDirs ds rest)
    | .matchFail => ([], .matchFail)
    | .inputFail => ([], .inputFail)
    | .undefined => ([], .undefined)

/-- The value of the C macro `EOF`. -/
def EOF : Int := -1

/-- What a call of `fscanf` leaves: its return value and the items assigned, in
the order of the pointer arguments. -/
structure Scanned where
  ret : Int
  items : List Val
  deriving DecidableEq, Repr

/-- The C library function `fscanf` on a stream holding `input`, called with
pointers to the objects `args`: the number of items assigned, or `EOF` when an
input failure occurs before any item is assigned (glibc: `if (done == 0) done =
EOF`, musl: `if (!matches) matches--`, where both counters count assignments
only); `none` when the behaviour is undefined: a converted value that the type
of the conversion cannot represent, or an item whose store is not a store into
the object behind its pointer argument (ISO C 7.21.6.2, paragraph 10). -/
def fscanf (format : String) (args : List CObj) (input : List Char) : Option Scanned :=
  match scanDirs (parseFormat .text format.toList) input with
  | (_, .undefined) => none
  | (items, .inputFail) =>
    if allFit args items then some ⟨if items.isEmpty then EOF else items.length, items⟩
    else none
  | (items, _) => if allFit args items then some ⟨items.length, items⟩ else none

/-- The integer object behind the `i`-th pointer argument after the call: the
`i`-th assigned item, or the initial value when the scan did not reach it. -/
def intArg (items : List Val) (i : Nat) (init : Int) : Int :=
  match items.get? i with
  | some (.int _ _ v) => v
  | _ => init

/-- The same for an object of an unsigned type. -/
def natArg (items : List Val) (i : Nat) (init : Nat) : Nat :=
  (intArg items i init).toNat

/-! ## `wrapper.c` -/

/-- Macro `MAX_NAME`: `#define MAX_NAME 128`. -/
def MAX_NAME : Nat := 128

/-- Arithmetic of `unsigned long` and `unsigned long long`: modulo `2 ^ 64`. -/
def wrap64 (n : Nat) : Nat := n % 2 ^ 64

/-- The format string of the `fscanf` call in `read_cpu_tick`. -/
def cpu_format : String :=
  "cpu  %16llu %16llu %16llu %16llu %16llu %16llu %16llu %16llu %16llu %16llu"

/-- The format string of the `fscanf` call in `read_time_from_pid`. -/
def time_format : String :=
  "%*d %s %*c %*d %*d %*d %*d %*d %*u %*u %*u %*u %*u %lu"
    ++ "%lu %*ld %*ld %*d %*d %*d %*d %*u %*lu %*ld"

/-- The format string of the `fscanf` call in `read_stat_from_pid`. -/
def stat_format : String :=
  "%*d "  -- pid
    ++ "%*s "  -- comm
    ++ "%*c "  -- state
    ++ "%d "   -- ppid
    ++ "%d "   -- pgrp
    ++ "%*d "  -- session
    ++ "%*d "  -- tty_nr
    ++ "%*d "  -- tpgid
    ++ "%*u "  -- flags
    ++ "%*u "  -- minflt
    ++ "%*u "  -- cminflt
    ++ "%*u "  -- majflt
    ++ "%*u "  -- cmajflt
    ++ "%lu "  -- utime
    ++ "%lu "  -- stime
    ++ "%*ld " -- cutime
    ++ "%*ld " -- cstime
    ++ "%*d "  -- priority
    ++ "%ld "  -- nice
    ++ "%ld "  -- num_threads
    ++ "%*d "  -- itrealvalue
    ++ "%llu " -- starttime
    ++ "%*lu " -- vsize
    ++ "%*ld"  -- rss

/-- The objects behind the pointer arguments of the `fscanf` call in
`read_cpu_tick`: `&usertime, &nicetime, &systemtime, &idletime, &ioWait, &irq,
&softIrq, &steal, &guest, &guestnice`, all `unsigned long long int`. -/
def cpu_args : List CObj :=
  [c_unsigned_long_long, c_unsigned_long_long, c_unsigned_long_long, c_unsigned_long_long,
   c_unsigned_long_long, c_unsigned_long_long, c_unsigned_long_long, c_unsigned_long_long,
   c_unsigned_long_long, c_unsigned_long_long]

/-- The objects behind the pointer arguments of the `fscanf` call in
`read_time_from_pid`: `name, &utime, &stime` with `char name[MAX_NAME + 1]`,
`unsigned long utime` and `unsigned long stime`. -/
def time_args : List CObj := [.array (MAX_NAME + 1), c_unsigned_long, c_unsigned_long]

/-- The objects behind the pointer arguments of the `fscanf` call in
`read_stat_from_pid`: `&_ppid, &_pgrp, &_utime, &_stime, &_nice, &_threads,
&_starttime` with `int _ppid`, `int _pgrp`, `unsigned long _utime`,
`unsigned long _stime`, `int _nice`, `int _threads` and
`unsigned long _starttime`. The format scans ppid and pgrp with `%d`, nice and
num_threads with `%ld`. -/
def stat_args : List CObj :=
  [c_int, c_int, c_unsigned_long, c_unsigned_long, c_int, c_int, c_unsigned_long]

/-- Function `unsigned long long int read_cpu_tick()`; `stat` is the content of
`/proc/stat`, `none` when `fopen` fails. The result is `none` when the call is
undefined. -/
def read_cpu_tick (stat : Option (List Char)) : Option Nat :=
  match stat with
  | none => some 0
  | some fp =>
    match fscanf cpu_format cpu_args fp with
    | none => none
    | some r =>
      let usertime := natArg r.items 0 0
      let nicetime := natArg r.items 1 0
      let systemtime := natArg r.items 2 0
      let idletime := natArg r.items 3 0
      let ioWait := natArg r.items 4 0
      let irq := natArg r.items 5 0
      let softIrq := natArg r.items 6 0
      let steal := natArg r.items 7 0
      let guest := natArg r.items 8 0
      let guestnice := natArg r.items 9 0
      if r.ret = EOF then some 0
      else some (wrap64 (usertime + nicetime + systemtime + idletime + ioWait + irq + softIrq
        + steal + guest + guestnice))

/-- Function `unsigned long read_time_from_pid(int pid)`; `proc pid` is the
content of `/proc/<pid>/stat`, `none` when `fopen` fails. The result is `none`
when the call is undefined: the `%s` item does not fit `char name[MAX_NAME + 1]`,
or a `%lu` item is not in the range of `unsigned long`. -/
def read_time_from_pid (proc : Int → Option (List Char)) (pid : Int) : Option Nat :=
  match proc pid with
  | none => some 0
  | some fp =>
    match fscanf time_format time_args fp with
    | none => none
    | some r =>
      let utime := natArg r.items 1 0
      let stime := natArg r.items 2 0
      let ans : Bool := r.ret ≠ EOF
      if !ans then some 0
      else some (wrap64 (utime + stime))

/-- The six objects behind the output pointers of `read_stat_from_pid`. -/
structure StatOut where
  ppid : Int
  pgrp : Int
  time : Nat
  nice : Int
  threads : Int
  starttime : Nat
  deriving DecidableEq, Repr

/-- Whether an `int` object can hold `v`. -/
def fitsInt (v : Int) : Bool := -(2 : Int) ^ 31 ≤ v && v < (2 : Int) ^ 31

/-- Function `int read_stat_from_pid(int pid, int *ppid, int *pgrp,
unsigned long *time, int *nice, int *threads, unsigned long *starttime)`;
`proc pid` is the content of `/proc/<pid>/stat`, `none` when `fopen` fails;
`out` holds the objects behind the six pointers before the call, the result
holds the returned `true` or `false` and the objects after the call. The result
is `none` when the call is undefined. -/
def read_stat_from_pid (proc : Int → Option (List Char)) (pid : Int) (out : StatOut) :
    Option (Bool × StatOut) :=
  match proc pid with
  | none => some (false, out)
  | some fp =>
    match fscanf stat_format stat_args fp with
    | none => none
    | some r =>
      let _ppid := intArg r.items 0 0
      let _pgrp := intArg r.items 1 0
      let _utime := natArg r.items 2 0
      let _stime := natArg r.items 3 0
      let _nice := intArg r.items 4 0
      let _threads := intArg r.items 5 0
      let _starttime := natArg r.items 6 0
      let ans : Bool := r.ret ≠ EOF
      if !ans then some (false, out)
      else some (true,
        { ppid := _ppid, pgrp := _pgrp, time := wrap64 (_utime + _stime), nice := _nice,
          threads := _threads, starttime := _starttime })

/-- Function `unsigned int num_cores()`; `sysconf_nprocessors_onln` is what
`sysconf(_SC_NPROCESSORS_ONLN)` returns, a `long`, converted to `unsigned int`
by the return. -/
def num_cores (sysconf_nprocessors_onln : Int) : Nat :=
  (sysconf_nprocessors_onln % 2 ^ 32).toNat

/-! ## Contents of the files, for the statements -/

/-- A natural number written in decimal, as the kernel prints it. -/
def decNat (n : Nat) : List Char := Nat.toDigits 10 n

/-- An integer written in decimal, with a minus sign when negative. -/
def decInt : Int → List Char
  | .ofNat n => decNat n
  | .negSucc n => '-' :: decNat (n + 1)

/-- Fields separated by single spaces. -/
def unwords : List (List Char) → List Char
  | [] => []
  | [w] => w
  | w :: ws => w ++ ' ' :: unwords ws

/-- Whether a field width, if any, admits `n` characters. -/
def widthOk : Option Nat → Nat → Bool
  | none, _ => true
  | some k, n => n ≤ k

/-- What may follow a number for the number to end there: the end of the input,
or a character that is not a decimal digit. -/
def delim : List Char → Bool
  | [] => true
  | c :: _ => !c.isDigit

/-- What may follow the last field of a line: the end of the input, or white
space (a space before further fields, or the end of the line). -/
def fieldEnd : List Char → Bool
  | [] => true
  | c :: _ => isspace c

/-- A field: a non-empty word without white space. -/
def isWord (w : List Char) : Bool := !w.isEmpty && w.all (fun c => !isspace c)

/-- A line of `/proc/stat` cut after its first `k` counters: `cpu`, the
characters `ws` (two spaces on the first line), and the counters written in
decimal with single spaces between them. -/
def cpuLineTake (ws : List Char) (k : Nat) (vs : List Nat) : List Char :=
  'c' :: 'p' :: 'u' :: (ws ++ unwords ((vs.map decNat).take k))

/-- The first line of `/proc/stat`: `cpu`, two spaces, and the ten counters. -/
def cpuLine (v1 v2 v3 v4 v5 v6 v7 v8 v9 v10 : Nat) : List Char :=
  cpuLineTake [' ', ' '] 10 [v1, v2, v3, v4, v5, v6, v7, v8, v9, v10]

/-- The first 24 fields of `/proc/<pid>/stat`, see proc(5). -/
structure StatLine where
  pid : Int
  comm : List Char
  state : Char
  ppid : Int
  pgrp : Int
  session : Int
  tty_nr : Int
  tpgid : Int
  flags : Nat
  minflt : Nat
  cminflt : Nat
  majflt : Nat
  cmajflt : Nat
  utime : Nat
  stime : Nat
  cutime : Int
  cstime : Int
  priority : Int
  nice : Int
  num_threads : Int
  itrealvalue : Int
  starttime : Nat
  vsize : Nat
  rss : Int

/-- The fields of a stat line as they are written in the file. -/
def StatLine.fields (l : StatLine) : List (List Char) :=
  [decInt l.pid, l.comm, [l.state], decInt l.ppid, decInt l.pgrp, decInt l.session,
   decInt l.tty_nr, decInt l.tpgid, decNat l.flags, decNat l.minflt, decNat l.cminflt,
   decNat l.majflt, decNat l.cmajflt, decNat l.utime, decNat l.stime, decInt l.cutime,
   decInt l.cstime, decInt l.priority, decInt l.nice, decInt l.num_threads,
   decInt l.itrealvalue, decNat l.starttime, decNat l.vsize, decInt l.rss]

/-- The name is a word and the state is one character that is not white space. -/
def StatLine.wordsOk (l : StatLine) : Bool := isWord l.comm && !isspace l.state

/-- A file system in which `/proc/<pid>/stat` has the given content for every
`pid`, or cannot be opened. -/
def procFile (content : Option (List Char)) : Int → Option (List Char) := fun _ => content

/-- The stored fields of a stat line are in the range of their C types. -/
def StatLine.storedInRange (l : StatLine) : Bool :=
  fitsInt l.ppid && fitsInt l.pgrp && decide (l.utime < 2 ^ 64) && decide (l.stime < 2 ^ 64)
    && fitsInt l.nice && fitsInt l.num_threads && decide (l.starttime < 2 ^ 64)

/-- A stat line with ppid 1, pgrp 100, utime 10, stime 20, nice 5, three
threads and start time 99999. -/
def statExample : StatLine :=
  { pid := 4242, comm := "(cat)".toList, state := 'S', ppid := 1, pgrp := 100, session := 100,
    tty_nr := 0, tpgid := -1, flags := 4194304, minflt := 0, cminflt := 0, majflt := 0,
    cmajflt := 0, utime := 10, stime := 20, cutime := 0, cstime := 0, priority := 20,
    nice := 5, num_threads := 3, itrealvalue := 0, starttime := 99999, vsize := 0, rss := 0 }

/-- The items `read_stat_from_pid` is assigned from the first `k` fields. -/
def statItems (l : StatLine) (k : Nat) : List Val :=
  (if 4 ≤ k then [Val.int true 32 l.ppid] else [])
    ++ (if 5 ≤ k then [Val.int true 32 l.pgrp] else [])
    ++ (if 14 ≤ k then [Val.int false 64 l.utime] else [])
    ++ (if 15 ≤ k then [Val.int false 64 l.stime] else [])
    ++ (if 19 ≤ k then [Val.int true 64 l.nice] else [])
    ++ (if 20 ≤ k then [Val.int true 64 l.num_threads] else [])
    ++ (if 22 ≤ k then [Val.int false 64 l.starttime] else [])

/-- The items `read_time_from_pid` is assigned from the first `k` fields. -/
def timeItems (l : StatLine) (k : Nat) : List Val :=
  (if 2 ≤ k then [Val.str l.comm] else [])
    ++ (if 14 ≤ k then [Val.int false 64 l.utime] else [])
    ++ (if 15 ≤ k then [Val.int false 64 l.stime] else [])

/-- A character that cannot start a number: not white space, not a digit, not a
sign. -/
def notNumeric (c : Char) : Bool := !isspace c && !c.isDigit && c != '-' && c != '+'

/-- Whether the input starts a number: a digit or a sign. -/
def numberStart : List Char → Bool
  | [] => false
  | c :: _ => c.isDigit || c = '-' || c = '+'

/-- A non-empty word of letters only. -/
def isLetters (w : List Char) : Bool := !w.isEmpty && w.all Char.isAlpha

/-- The content `<pid> (<A> <B>) <rest>`. -/
def twoWordName (pid : Int) (A B rest : List Char) : List Char :=
  decInt pid ++ ' ' :: '(' :: (A ++ ' ' :: (B ++ ')' :: ' ' :: rest))

/-! # Theorems -/


/-! ## Decimal numerals -/

theorem digitChar_isDigit (k : Nat) (h : k < 10) :
    (Nat.digitChar k).isDigit = true ∧ (Nat.digitChar k).toNat - 48 = k := by
  interval_cases k <;> exact ⟨by decide, by decide⟩

theorem decVal_append_single (ds : List Char) (c : Char) :
    decVal (ds ++ [c]) = decVal ds * 10 + (c.toNat - 48) := by
  simp [decVal, List.foldl_append]

theorem toDigitsCore_run (k : Nat) : ∀ (m : Nat) (tl : List Char), m < k →
    ∃ run : List Char, (∀ c ∈ run, c.isDigit = true) ∧ decVal run = m ∧ run ≠ [] ∧
      Nat.toDigitsCore 10 k m tl = run ++ tl := by
  induction k with
  | zero => intro m tl h; omega
  | succ k ih =>
    intro m tl h
    have hlast := digitChar_isDigit (m % 10) (Nat.mod_lt _ (by decide))
    by_cases hq : m / 10 = 0
    · refine ⟨[Nat.digitChar (m % 10)], ?_, ?_, by simp, ?_⟩
      · intro c hc
        simp only [List.mem_singleton] at hc
        rw [hc]; exact hlast.1
      · have hsmall : m < 10 := by omega
        simp only [decVal, List.foldl_cons, List.foldl_nil, Nat.zero_mul, Nat.zero_add]
        rw [hlast.2]; exact Nat.mod_eq_of_lt hsmall
      · simp [Nat.toDigitsCore, hq]
    · obtain ⟨run, hdig, hval, _, hrun⟩ := ih (m / 10) (Nat.digitChar (m % 10) :: tl) (by omega)
      refine ⟨run ++ [Nat.digitChar (m % 10)], ?_, ?_, by simp, ?_⟩
      · intro c hc
        rcases List.mem_append.1 hc with hc | hc
        · exact hdig c hc
        · simp only [List.mem_singleton] at hc
          rw [hc]; exact hlast.1
      · rw [decVal_append_single, hval, hlast.2]; omega
      · simp [Nat.toDigitsCore, hq, hrun]

theorem decNat_spec (n : Nat) :
    decNat n ≠ [] ∧ (∀ c ∈ decNat n, c.isDigit = true) ∧ decVal (decNat n) = n := by
  obtain ⟨run, hdig, hval, hne, hrun⟩ := toDigitsCore_run (n + 1) n [] (Nat.lt_succ_self n)
  have hdec : decNat n = run := by simpa [decNat, Nat.toDigits] using hrun
  rw [hdec]; exact ⟨hne, hdig, hval⟩

theorem decNat_length_le (n e : Nat) (he : 0 < e) (h : n < 10 ^ e) : (decNat n).length ≤ e := by
  have := Nat.repr_length n e he h
  simpa [Nat.repr, decNat] using this

/-! ## Characters -/

theorem isDigit_toNat (c : Char) (h : c.isDigit = true) : 48 ≤ c.toNat ∧ c.toNat ≤ 57 := by
  simp only [Char.isDigit, Bool.and_eq_true, decide_eq_true_eq] at h
  exact ⟨h.1, h.2⟩

theorem isspace_of_isDigit (c : Char) (h : c.isDigit = true) : isspace c = false := by
  have hn := isDigit_toNat c h
  have h1 : c ≠ ' ' := by
    intro hc; rw [hc] at hn; revert hn; decide
  simp only [isspace, Bool.or_eq_false_iff, decide_eq_false_iff_not, Bool.and_eq_false_iff,
    not_le]
  exact ⟨h1, Or.inr (by omega)⟩

theorem not_sign_of_isDigit (c : Char) (h : c.isDigit = true) : c ≠ '-' ∧ c ≠ '+' := by
  have hn := isDigit_toNat c h
  constructor <;> (intro hc; rw [hc] at hn; revert hn; decide)

theorem delim_of_fieldEnd (tail : List Char) (h : fieldEnd tail = true) : delim tail = true := by
  cases tail with
  | nil => rfl
  | cons c cs =>
    simp only [fieldEnd] at h
    simp only [delim, Bool.not_eq_true']
    by_contra hd
    have := isspace_of_isDigit c (by simpa using hd)
    rw [h] at this; exact Bool.noConfusion this

/-! ## Runs of digits and of non-space characters -/

theorem takeDigits_append (ds : List Char) : ∀ (w : Option Nat) (tail : List Char),
    (∀ c ∈ ds, c.isDigit = true) → delim tail = true → widthOk w ds.length = true →
    takeDigits w (ds ++ tail) = (ds, tail) := by
  induction ds with
  | nil =>
    intro w tail _ hd _
    cases tail with
    | nil => simp [takeDigits]
    | cons c cs =>
      have hc : c.isDigit = false := by simpa [delim] using hd
      simp [takeDigits, hc]
  | cons d ds ih =>
    intro w tail hdig hd hw
    have hdd : d.isDigit = true := hdig d (List.mem_cons_self _ _)
    have hw0 : w ≠ some 0 := by
      intro h0; rw [h0] at hw; simp [widthOk] at hw
    have hw1 : widthOk (w.map (· - 1)) ds.length = true := by
      cases w with
      | none => rfl
      | some k =>
        simp only [widthOk, List.length_cons, decide_eq_true_eq, Option.map_some'] at hw ⊢
        omega
    have := ih (w.map (· - 1)) tail (fun c hc => hdig c (List.mem_cons_of_mem _ hc)) hd hw1
    simp [takeDigits, hw0, hdd, this]

theorem takeWord_append (ws : List Char) : ∀ (tail : List Char),
    (∀ c ∈ ws, isspace c = false) → fieldEnd tail = true →
    takeWord none (ws ++ tail) = (ws, tail) := by
  induction ws with
  | nil =>
    intro tail _ hd
    cases tail with
    | nil => simp [takeWord]
    | cons c cs =>
      have hc : isspace c = true := by simpa [fieldEnd] using hd
      simp [takeWord, hc]
  | cons d ds ih =>
    intro tail hws hd
    have hdd : isspace d = false := hws d (List.mem_cons_self _ _)
    have := ih tail (fun c hc => hws c (List.mem_cons_of_mem _ hc)) hd
    simp [takeWord, hdd, this]

/-! ## White space -/

@[simp] theorem skipSpace_space (rest : List Char) : skipSpace (' ' :: rest) = skipSpace rest := by
  simp [skipSpace, isspace]

theorem skipSpace_cons_of_not_space (c : Char) (rest : List Char) (h : isspace c = false) :
    skipSpace (c :: rest) = c :: rest := by
  simp [skipSpace, h]

theorem skipSpace_digits (ds rest : List Char) (hne : ds ≠ [])
    (hdig : ∀ c ∈ ds, c.isDigit = true) : skipSpace (ds ++ rest) = ds ++ rest := by
  cases ds with
  | nil => exact absurd rfl hne
  | cons c cs =>
    exact skipSpace_cons_of_not_space c _ (isspace_of_isDigit c (hdig c (List.mem_cons_self _ _)))

theorem skipSpace_decNat (n : Nat) (rest : List Char) :
    skipSpace (decNat n ++ rest) = decNat n ++ rest :=
  skipSpace_digits _ _ (decNat_spec n).1 (decNat_spec n).2.1

theorem skipSpace_decInt (v : Int) (rest : List Char) :
    skipSpace (decInt v ++ rest) = decInt v ++ rest := by
  cases v with
  | ofNat n => exact skipSpace_decNat n rest
  | negSucc n => exact skipSpace_cons_of_not_space _ _ (by decide)

theorem isWord_spec (w : List Char) (h : isWord w = true) :
    w ≠ [] ∧ ∀ c ∈ w, isspace c = false := by
  simp only [isWord, Bool.and_eq_true, Bool.not_eq_true', List.all_eq_true] at h
  refine ⟨?_, h.2⟩
  intro hw; rw [hw] at h; simp at h

theorem skipSpace_word (w rest : List Char) (h : isWord w = true) :
    skipSpace (w ++ rest) = w ++ rest := by
  obtain ⟨hne, hws⟩ := isWord_spec w h
  cases w with
  | nil => exact absurd rfl hne
  | cons c cs => exact skipSpace_cons_of_not_space c _ (hws c (List.mem_cons_self _ _))

/-! ## Single conversions on well-formed fields -/

theorem scanNumber_digits (sup : Bool) (w : Option Nat) (l : Nat) (signed : Bool)
    (ds tail : List Char) (hne : ds ≠ []) (hdig : ∀ c ∈ ds, c.isDigit = true)
    (hd : delim tail = true) (hw : widthOk w ds.length = true) :
    scanNumber sup w l signed (ds ++ tail) =
      if sup then .ok none tail
      else match convertInt signed (intBits l) false (decVal ds) with
        | some v => .ok (some (.int signed (intBits l) v)) tail
        | none => .undefined := by
  have htake := takeDigits_append ds w tail hdig hd hw
  cases ds with
  | nil => exact absurd rfl hne
  | cons c cs =>
    have hc := hdig c (List.mem_cons_self _ _)
    have hs := not_sign_of_isDigit c hc
    have hsk : skipSpace (c :: cs ++ tail) = c :: (cs ++ tail) :=
      skipSpace_cons_of_not_space c _ (isspace_of_isDigit c hc)
    simp only [List.cons_append] at htake
    simp only [scanNumber, hsk, hs.1, hs.2, decide_False, Bool.or_self, Bool.false_eq_true,
      if_false, htake, List.isEmpty_cons]

theorem scanNumber_neg_digits (sup : Bool) (w : Option Nat) (l : Nat) (signed : Bool)
    (ds tail : List Char) (hne : ds ≠ []) (hdig : ∀ c ∈ ds, c.isDigit = true)
    (hd : delim tail = true) (hw : widthOk w (ds.length + 1) = true) :
    scanNumber sup w l signed ('-' :: ds ++ tail) =
      if sup then .ok none tail
      else match convertInt signed (intBits l) true (decVal ds) with
        | some v => .ok (some (.int signed (intBits l) v)) tail
        | none => .undefined := by
  have hw1 : widthOk (w.map (· - 1)) ds.length = true := by
    cases w with
    | none => rfl
    | some k =>
      simp only [widthOk, decide_eq_true_eq, Option.map_some'] at hw ⊢
      omega
  have htake := takeDigits_append ds (w.map (· - 1)) tail hdig hd hw1
  have hsk : skipSpace ('-' :: ds ++ tail) = '-' :: (ds ++ tail) :=
    skipSpace_cons_of_not_space _ _ (by decide)
  have hemp : ds.isEmpty = false := by
    cases ds with
    | nil => exact absurd rfl hne
    | cons c cs => rfl
  simp only [scanNumber, hsk, decide_True, Bool.true_or, if_true, htake, hemp,
    Bool.false_eq_true, if_false]

theorem scanNumber_decNat_sup (l : Nat) (signed : Bool) (n : Nat) (tail : List Char)
    (hd : delim tail = true) :
    scanNumber true none l signed (decNat n ++ tail) = .ok none tail := by
  rw [scanNumber_digits true none l signed _ tail (decNat_spec n).1 (decNat_spec n).2.1 hd rfl]
  rfl

theorem scanNumber_decInt_sup (l : Nat) (signed : Bool) (v : Int) (tail : List Char)
    (hd : delim tail = true) :
    scanNumber true none l signed (decInt v ++ tail) = .ok none tail := by
  cases v with
  | ofNat n => exact scanNumber_decNat_sup l signed n tail hd
  | negSucc n =>
    have := scanNumber_neg_digits true none l signed _ tail (decNat_spec (n + 1)).1
      (decNat_spec (n + 1)).2.1 hd rfl
    simpa [decInt] using this

theorem convertInt_signed (bits : Nat) (v : Int)
    (h : -(2 : Int) ^ (bits - 1) ≤ v ∧ v < (2 : Int) ^ (bits - 1)) :
    convertInt true bits (decide (v < 0)) v.natAbs = some v := by
  have hv : (if decide (v < 0) = true then -(v.natAbs : Int) else (v.natAbs : Int)) = v := by
    by_cases hneg : v < 0
    · simp only [hneg, decide_True, if_true]; omega
    · simp only [hneg, decide_False, Bool.false_eq_true, if_false]; omega
  simp only [convertInt, if_true, hv, h, and_self]

theorem scanNumber_decInt_signed (l : Nat) (v : Int) (tail : List Char)
    (hd : delim tail = true)
    (h : -(2 : Int) ^ (intBits l - 1) ≤ v ∧ v < (2 : Int) ^ (intBits l - 1)) :
    scanNumber false none l true (decInt v ++ tail) =
      .ok (some (.int true (intBits l) v)) tail := by
  have hc := convertInt_signed (intBits l) v h
  cases v with
  | ofNat n =>
    have := scanNumber_digits false none l true _ tail (decNat_spec n).1 (decNat_spec n).2.1
      hd rfl
    have hneg : decide ((Int.ofNat n) < 0) = false := by
      simp only [decide_eq_false_iff_not, not_lt]; exact Int.ofNat_nonneg n
    rw [hneg] at hc
    have hab : (Int.ofNat n).natAbs = n := rfl
    rw [hab] at hc
    simp only [decInt, this, (decNat_spec n).2.2, Bool.false_eq_true, if_false, hc]
  | negSucc n =>
    have := scanNumber_neg_digits false none l true _ tail (decNat_spec (n + 1)).1
      (decNat_spec (n + 1)).2.1 hd rfl
    have hneg : decide ((Int.negSucc n) < 0) = true := by
      simp only [decide_eq_true_eq]; exact Int.negSucc_lt_zero n
    rw [hneg] at hc
    have hab : (Int.negSucc n).natAbs = n + 1 := rfl
    rw [hab] at hc
    simp only [decInt, List.cons_append] at this ⊢
    simp only [this, (decNat_spec (n + 1)).2.2, Bool.false_eq_true, if_false, hc]

theorem scanNumber_decInt_int (v : Int) (tail : List Char) (hd : delim tail = true)
    (h : fitsInt v = true) :
    scanNumber false none 0 true (decInt v ++ tail) = .ok (some (.int true 32 v)) tail := by
  apply scanNumber_decInt_signed 0 v tail hd
  simp only [fitsInt, Bool.and_eq_true, decide_eq_true_eq] at h
  simpa [intBits] using h

theorem scanNumber_decInt_long (v : Int) (tail : List Char) (hd : delim tail = true)
    (h : fitsInt v = true) :
    scanNumber false none 1 true (decInt v ++ tail) = .ok (some (.int true 64 v)) tail := by
  apply scanNumber_decInt_signed 1 v tail hd
  simp only [fitsInt, Bool.and_eq_true, decide_eq_true_eq] at h
  simp only [intBits, Nat.one_ne_zero, if_false]
  constructor <;> norm_num <;> omega

theorem scanNumber_decNat_unsigned (w : Option Nat) (l : Nat) (n : Nat) (tail : List Char)
    (hd : delim tail = true) (hw : widthOk w (decNat n).length = true)
    (h : n < 2 ^ intBits l) :
    scanNumber false w l false (decNat n ++ tail) =
      .ok (some (.int false (intBits l) (n : Int))) tail := by
  rw [scanNumber_digits false w l false _ tail (decNat_spec n).1 (decNat_spec n).2.1 hd hw]
  simp [convertInt, (decNat_spec n).2.2, h]

theorem scanNumber_decNat_ulong (n : Nat) (tail : List Char) (hd : delim tail = true)
    (h : n < 2 ^ 64) :
    scanNumber false none 1 false (decNat n ++ tail) =
      .ok (some (.int false 64 (n : Int))) tail :=
  scanNumber_decNat_unsigned none 1 n tail hd rfl (by simpa [intBits] using h)

theorem scanNumber_decNat_ullong (n : Nat) (tail : List Char) (hd : delim tail = true)
    (h : n < 2 ^ 64) :
    scanNumber false none 2 false (decNat n ++ tail) =
      .ok (some (.int false 64 (n : Int))) tail :=
  scanNumber_decNat_unsigned none 2 n tail hd rfl (by simpa [intBits] using h)

theorem scanNumber_decNat_w16 (n : Nat) (tail : List Char) (hd : delim tail = true)
    (h : n < 10 ^ 16) :
    scanNumber false (some 16) 2 false (decNat n ++ tail) =
      .ok (some (.int false 64 (n : Int))) tail := by
  apply scanNumber_decNat_unsigned (some 16) 2 n tail hd
  · simpa [widthOk] using decNat_length_le n 16 (by decide) h
  · have : (10 : Nat) ^ 16 < 2 ^ 64 := by norm_num
    simp only [intBits]; norm_num; omega

theorem scanString_word (sup : Bool) (w tail : List Char) (hw : isWord w = true)
    (hd : fieldEnd tail = true) :
    scanString sup none (w ++ tail) =
      if sup then .ok none tail else .ok (some (.str w)) tail := by
  obtain ⟨hne, hws⟩ := isWord_spec w hw
  have htake := takeWord_append w tail hws hd
  have hsk := skipSpace_word w tail hw
  cases w with
  | nil => exact absurd rfl hne
  | cons c cs =>
    simp only [List.cons_append] at htake hsk
    simp only [scanString, List.cons_append, hsk, htake]

theorem scanChars_one (c : Char) (rest : List Char) :
    scanChars true none (c :: rest) = .ok none rest := by
  simp [scanChars]

@[simp] theorem delim_space (rest : List Char) : delim (' ' :: rest) = true := rfl

@[simp] theorem fieldEnd_space (rest : List Char) : fieldEnd (' ' :: rest) = true := rfl

/-! ## The three format strings -/

theorem format_cpu :
    parseFormat .text cpu_format.toList =
    [.lit 'c', .lit 'p', .lit 'u', .space, .space,
     .conv false (some 16) 2 .unsigned, .space, .conv false (some 16) 2 .unsigned, .space,
     .conv false (some 16) 2 .unsigned, .space, .conv false (some 16) 2 .unsigned, .space,
     .conv false (some 16) 2 .unsigned, .space, .conv false (some 16) 2 .unsigned, .space,
     .conv false (some 16) 2 .unsigned, .space, .conv false (some 16) 2 .unsigned, .space,
     .conv false (some 16) 2 .unsigned, .space, .conv false (some 16) 2 .unsigned] := by
  decide

theorem format_time :
    parseFormat .text time_format.toList =
    [.conv true none 0 .signed, .space, .conv false none 0 .str, .space,
     .conv true none 0 .chr, .space, .conv true none 0 .signed, .space,
     .conv true none 0 .signed, .space, .conv true none 0 .signed, .space,
     .conv true none 0 .signed, .space, .conv true none 0 .signed, .space,
     .conv true none 0 .unsigned, .space, .conv true none 0 .unsigned, .space,
     .conv true none 0 .unsigned, .space, .conv true none 0 .unsigned, .space,
     .conv true none 0 .unsigned, .space, .conv false none 1 .unsigned,
     .conv false none 1 .unsigned, .space, .conv true none 1 .signed, .space,
     .conv true none 1 .signed, .space, .conv true none 0 .signed, .space,
     .conv true none 0 .signed, .space, .conv true none 0 .signed, .space,
     .conv true none 0 .signed, .space, .conv true none 0 .unsigned, .space,
     .conv true none 1 .unsigned, .space, .conv true none 1 .signed] := by
  decide

theorem format_stat :
    parseFormat .text stat_format.toList =
    [.conv true none 0 .signed, .space, .conv true none 0 .str, .space,
     .conv true none 0 .chr, .space, .conv false none 0 .signed, .space,
     .conv false none 0 .signed, .space, .conv true none 0 .signed, .space,
     .conv true none 0 .signed, .space, .conv true none 0 .signed, .space,
     .conv true none 0 .unsigned, .space, .conv true none 0 .unsigned, .space,
     .conv true none 0 .unsigned, .space, .conv true none 0 .unsigned, .space,
     .conv true none 0 .unsigned, .space, .conv false none 1 .unsigned, .space,
     .conv false none 1 .unsigned, .space, .conv true none 1 .signed, .space,
     .conv true none 1 .signed, .space, .conv true none 0 .signed, .space,
     .conv false none 1 .signed, .space, .conv false none 1 .signed, .space,
     .conv true none 0 .signed, .space, .conv false none 2 .unsigned, .space,
     .conv true none 1 .unsigned, .space, .conv true none 1 .signed] := by
  decide

/-! ## Conversions at the end of the input -/

theorem scanNumber_nil (sup : Bool) (w : Option Nat) (l : Nat) (signed : Bool) :
    scanNumber sup w l signed [] = .inputFail := rfl

theorem scanString_nil (sup : Bool) (w : Option Nat) : scanString sup w [] = .inputFail := rfl

theorem scanChars_nil (sup : Bool) (w : Option Nat) : scanChars sup w [] = .inputFail := rfl

theorem skipSpace_nil : skipSpace [] = [] := rfl

theorem scanNumber_space (sup : Bool) (w : Option Nat) (l : Nat) (signed : Bool)
    (rest : List Char) :
    scanNumber sup w l signed (' ' :: rest) = scanNumber sup w l signed rest := by
  simp only [scanNumber, skipSpace_space]

theorem delim_nil : delim [] = true := rfl

theorem fieldEnd_nil : fieldEnd [] = true := rfl

/-! ## `read_stat_from_pid` -/

theorem scan_stat_take (l : StatLine) (k : Nat) (hk : k ≤ 24) (tail : List Char)
    (hw : isWord l.comm = true) (hs : isspace l.state = false)
    (hppid : fitsInt l.ppid = true) (hpgrp : fitsInt l.pgrp = true)
    (hutime : l.utime < 2 ^ 64) (hstime : l.stime < 2 ^ 64)
    (hnice : fitsInt l.nice = true) (hthreads : fitsInt l.num_threads = true)
    (hstart : l.starttime < 2 ^ 64) (htail : if k = 24 then fieldEnd tail = true else tail = []) :
    scanDirs (parseFormat .text stat_format.toList) (unwords (l.fields.take k) ++ tail) =
      (statItems l k, if k = 24 then .complete else .inputFail) := by
  rw [format_stat]
  interval_cases k <;> simp only [Nat.reduceEqDiff, if_false, if_true] at htail <;>
  first
  | subst htail
  | have hdt := delim_of_fieldEnd tail htail
  all_goals
  simp only [StatLine.fields, List.take, unwords, List.append_assoc, List.cons_append,
    List.nil_append, statItems, Nat.reduceLeDiff, Nat.reduceEqDiff, if_false, if_true,
    scanDirs, step, skipSpace_nil, skipSpace_space, skipSpace_decInt, skipSpace_decNat,
    skipSpace_word, hw, skipSpace_cons_of_not_space, hs, scanNumber_nil, scanString_nil,
    scanChars_nil, scanNumber_decInt_sup, scanNumber_decNat_sup, scanNumber_decInt_int,
    scanNumber_decInt_long, scanNumber_decNat_ulong, scanNumber_decNat_ullong, scanString_word,
    scanChars_one, delim_space, fieldEnd_space, delim_nil, fieldEnd_nil, hppid, hpgrp, hutime,
    hstime, hnice, hthreads, hstart, addItem, Option.toList, *]

theorem read_stat_take (l : StatLine) (k : Nat) (hk : k ≤ 24) (tail : List Char)
    (proc : Int → Option (List Char)) (pid : Int) (out : StatOut)
    (hproc : proc pid = some (unwords (l.fields.take k) ++ tail))
    (hw : isWord l.comm = true) (hs : isspace l.state = false)
    (hppid : fitsInt l.ppid = true) (hpgrp : fitsInt l.pgrp = true)
    (hutime : l.utime < 2 ^ 64) (hstime : l.stime < 2 ^ 64)
    (hnice : fitsInt l.nice = true) (hthreads : fitsInt l.num_threads = true)
    (hstart : l.starttime < 2 ^ 64) (htail : if k = 24 then fieldEnd tail = true else tail = []) :
    read_stat_from_pid proc pid out =
      if 19 ≤ k then none
      else some (if k ≤ 3 then (false, out) else (true,
        { ppid := l.ppid
          pgrp := if 5 ≤ k then l.pgrp else 0
          time := ((if 14 ≤ k then l.utime else 0) + (if 15 ≤ k then l.stime else 0)) % 2 ^ 64
          nice := 0
          threads := 0
          starttime := 0 })) := by
  have hscan := scan_stat_take l k hk tail hw hs hppid hpgrp hutime hstime hnice hthreads hstart
    htail
  simp only [read_stat_from_pid, hproc, fscanf, hscan]
  interval_cases k <;>
  simp [statItems, intArg, natArg, List.get?, EOF, wrap64, allFit, storeFits, stat_args, c_int,
    c_unsigned_long]

/-! ## `read_time_from_pid` -/

theorem scan_time_take (l : StatLine) (k : Nat) (hk : k ≤ 24) (tail : List Char)
    (hw : isWord l.comm = true) (hs : isspace l.state = false)
    (hutime : l.utime < 2 ^ 64) (hstime : l.stime < 2 ^ 64)
    (htail : if k = 24 then fieldEnd tail = true else tail = []) :
    scanDirs (parseFormat .text time_format.toList) (unwords (l.fields.take k) ++ tail) =
      (timeItems l k, if k = 24 then .complete else .inputFail) := by
  rw [format_time]
  interval_cases k <;> simp only [Nat.reduceEqDiff, if_false, if_true] at htail <;>
  first
  | subst htail
  | have hdt := delim_of_fieldEnd tail htail
  all_goals
  simp only [StatLine.fields, List.take, unwords, List.append_assoc, List.cons_append,
    List.nil_append, timeItems, Nat.reduceLeDiff, Nat.reduceEqDiff, if_false, if_true,
    scanDirs, step, skipSpace_nil, skipSpace_space, skipSpace_decInt, skipSpace_decNat,
    skipSpace_word, hw, skipSpace_cons_of_not_space, hs, scanNumber_nil, scanString_nil,
    scanChars_nil, scanNumber_space, scanNumber_decInt_sup, scanNumber_decNat_sup,
    scanNumber_decNat_ulong, scanString_word, scanChars_one, delim_space, fieldEnd_space,
    delim_nil, fieldEnd_nil, hutime, hstime, addItem, Option.toList, Bool.false_eq_true, *]

theorem read_time_take (l : StatLine) (k : Nat) (hk : k ≤ 24) (tail : List Char)
    (proc : Int → Option (List Char)) (pid : Int)
    (hproc : proc pid = some (unwords (l.fields.take k) ++ tail))
    (hw : isWord l.comm = true) (hs : isspace l.state = false)
    (hutime : l.utime < 2 ^ 64) (hstime : l.stime < 2 ^ 64)
    (htail : if k = 24 then fieldEnd tail = true else tail = []) :
    read_time_from_pid proc pid =
      if 2 ≤ k ∧ MAX_NAME < l.comm.length then none
      else some (((if 14 ≤ k then l.utime else 0) + (if 15 ≤ k then l.stime else 0)) % 2 ^ 64) := by
  have hscan := scan_time_take l k hk tail hw hs hutime hstime htail
  simp only [read_time_from_pid, hproc, fscanf, hscan]
  by_cases hlen : MAX_NAME < l.comm.length
  · have hlen2 : ¬ l.comm.length ≤ MAX_NAME := by omega
    interval_cases k <;>
    simp [timeItems, intArg, natArg, List.get?, EOF, wrap64, allFit, storeFits, time_args,
      c_unsigned_long, hlen, hlen2]
  · have hlen2 : l.comm.length ≤ MAX_NAME := by omega
    interval_cases k <;>
    simp [timeItems, intArg, natArg, List.get?, EOF, wrap64, allFit, storeFits, time_args,
      c_unsigned_long, hlen, hlen2]

/-! ## `read_cpu_tick` -/

theorem skipSpace_run (ws rest : List Char) (h : ws.all isspace = true) :
    skipSpace (ws ++ rest) = skipSpace rest := by
  induction ws with
  | nil => rfl
  | cons c cs ih =>
    simp only [List.all_cons, Bool.and_eq_true] at h
    simp only [List.cons_append, skipSpace, h.1, if_true]
    exact ih h.2

theorem scan_cpu_take (ws : List Char) (hws : ws.all isspace = true)
    (v1 v2 v3 v4 v5 v6 v7 v8 v9 v10 : Nat) (k : Nat) (hk : k ≤ 10) (tail : List Char)
    (h1 : v1 < 10 ^ 16) (h2 : v2 < 10 ^ 16) (h3 : v3 < 10 ^ 16) (h4 : v4 < 10 ^ 16)
    (h5 : v5 < 10 ^ 16) (h6 : v6 < 10 ^ 16) (h7 : v7 < 10 ^ 16) (h8 : v8 < 10 ^ 16)
    (h9 : v9 < 10 ^ 16) (h10 : v10 < 10 ^ 16)
    (htail : if k = 10 then delim tail = true else tail = []) :
    scanDirs (parseFormat .text cpu_format.toList)
        (cpuLineTake ws k [v1, v2, v3, v4, v5, v6, v7, v8, v9, v10] ++ tail) =
      (([v1, v2, v3, v4, v5, v6, v7, v8, v9, v10].take k).map
        (fun v => Val.int false 64 (v : Int)),
        if k = 10 then .complete else .inputFail) := by
  rw [format_cpu]
  interval_cases k <;> simp only [Nat.reduceEqDiff, if_false, if_true] at htail <;>
  first
  | subst htail
  | skip
  all_goals
  simp only [cpuLineTake, List.map, List.take, unwords, List.append_assoc, List.cons_append,
    List.nil_append, Nat.reduceLeDiff, Nat.reduceEqDiff, if_false, if_true,
    scanDirs, step, skipSpace_run, hws, skipSpace_nil, skipSpace_space, skipSpace_decNat,
    scanNumber_nil, scanNumber_decNat_w16, delim_space, delim_nil, h1, h2, h3, h4, h5, h6, h7,
    h8, h9, h10, addItem, Option.toList, *]

theorem read_cpu_take (ws : List Char) (hws : ws.all isspace = true)
    (v1 v2 v3 v4 v5 v6 v7 v8 v9 v10 : Nat) (k : Nat) (hk : k ≤ 10) (tail : List Char)
    (h1 : v1 < 10 ^ 16) (h2 : v2 < 10 ^ 16) (h3 : v3 < 10 ^ 16) (h4 : v4 < 10 ^ 16)
    (h5 : v5 < 10 ^ 16) (h6 : v6 < 10 ^ 16) (h7 : v7 < 10 ^ 16) (h8 : v8 < 10 ^ 16)
    (h9 : v9 < 10 ^ 16) (h10 : v10 < 10 ^ 16)
    (htail : if k = 10 then delim tail = true else tail = []) :
    read_cpu_tick
        (some (cpuLineTake ws k [v1, v2, v3, v4, v5, v6, v7, v8, v9, v10] ++ tail)) =
      some (([v1, v2, v3, v4, v5, v6, v7, v8, v9, v10].take k).sum) := by
  have hscan := scan_cpu_take ws hws v1 v2 v3 v4 v5 v6 v7 v8 v9 v10 k hk tail h1 h2 h3 h4 h5
    h6 h7 h8 h9 h10 htail
  simp only [read_cpu_tick, fscanf, hscan]
  norm_num at h1 h2 h3 h4 h5 h6 h7 h8 h9 h10
  interval_cases k <;>
  simp [intArg, natArg, List.get?, EOF, wrap64, allFit, storeFits, cpu_args,
    c_unsigned_long_long] <;>
  omega

/-! ## Matching failures -/

theorem scanNumber_matchFail (sup : Bool) (w : Option Nat) (l : Nat) (signed : Bool)
    (c : Char) (rest : List Char) (hsp : isspace c = false) (hd : c.isDigit = false)
    (h1 : c ≠ '-') (h2 : c ≠ '+') :
    scanNumber sup w l signed (c :: rest) = .matchFail := by
  have htake : (takeDigits w (c :: rest)).1 = [] := by
    by_cases hw : w = some 0 <;> simp [takeDigits, hw, hd]
  simp [scanNumber, skipSpace, hsp, h1, h2, htake]

theorem skipSpace_idem (inp : List Char) : skipSpace (skipSpace inp) = skipSpace inp := by
  induction inp with
  | nil => rfl
  | cons c cs ih =>
    by_cases hc : isspace c = true
    · simp [skipSpace, hc, ih]
    · simp [skipSpace, hc]

theorem skipSpace_head (inp : List Char) (c : Char) (cs : List Char)
    (h : skipSpace inp = c :: cs) : isspace c = false := by
  induction inp with
  | nil => simp [skipSpace] at h
  | cons d ds ih =>
    by_cases hd : isspace d = true
    · simp only [skipSpace, hd, if_true] at h
      exact ih h
    · simp only [skipSpace, hd, Bool.false_eq_true, if_false, List.cons.injEq] at h
      rw [← h.1]; simpa using hd

theorem isAlpha_spec (c : Char) (h : c.isAlpha = true) :
    isspace c = false ∧ c.isDigit = false ∧ c ≠ '-' ∧ c ≠ '+' ∧ c ≠ ')' := by
  have hn : (65 ≤ c.toNat ∧ c.toNat ≤ 90) ∨ (97 ≤ c.toNat ∧ c.toNat ≤ 122) := by
    simp only [Char.isAlpha, Char.isUpper, Char.isLower, Bool.or_eq_true, Bool.and_eq_true,
      decide_eq_true_eq] at h
    rcases h with h | h
    · exact Or.inl ⟨h.1, h.2⟩
    · exact Or.inr ⟨h.1, h.2⟩
  have hne : ∀ d : Char, (d.toNat < 65 ∨ (90 < d.toNat ∧ d.toNat < 97) ∨ 122 < d.toNat) →
      c ≠ d := by
    intro d hd hcd; rw [hcd] at hn; omega
  refine ⟨?_, ?_, hne _ (by decide), hne _ (by decide), hne _ (by decide)⟩
  · simp only [isspace, Bool.or_eq_false_iff, decide_eq_false_iff_not, Bool.and_eq_false_iff,
      not_le]
    exact ⟨hne _ (by decide), Or.inr (by omega)⟩
  · by_contra hd
    have := isDigit_toNat c (by simpa using hd)
    omega

/-! ## A name of two words -/

theorem isLetters_spec (w : List Char) (h : isLetters w = true) :
    w ≠ [] ∧ ∀ c ∈ w, c.isAlpha = true := by
  simp only [isLetters, Bool.and_eq_true, Bool.not_eq_true', List.all_eq_true] at h
  refine ⟨?_, h.2⟩
  intro hw; rw [hw] at h; simp at h

theorem scanString_paren (sup : Bool) (A tail : List Char) (hA : isLetters A = true) :
    scanString sup none ('(' :: (A ++ ' ' :: tail)) =
      if sup then .ok none (' ' :: tail) else .ok (some (.str ('(' :: A))) (' ' :: tail) := by
  have hw : isWord ('(' :: A) = true := by
    simp only [isWord, List.isEmpty_cons, Bool.not_false, List.all_cons, Bool.true_and,
      Bool.and_eq_true, Bool.not_eq_true', List.all_eq_true]
    exact ⟨by decide, fun c hc => (isAlpha_spec c ((isLetters_spec A hA).2 c hc)).1⟩
  have := scanString_word sup ('(' :: A) (' ' :: tail) hw rfl
  simpa using this

theorem scan_after_state (sup : Bool) (w : Option Nat) (l : Nat) (signed : Bool)
    (bs rest : List Char) (hbs : ∀ c ∈ bs, c.isAlpha = true) :
    skipSpace (bs ++ ')' :: rest) = bs ++ ')' :: rest ∧
    scanNumber sup w l signed (bs ++ ')' :: rest) = .matchFail := by
  cases bs with
  | nil =>
    exact ⟨skipSpace_cons_of_not_space _ _ (by decide),
      scanNumber_matchFail sup w l signed _ _ (by decide) (by decide) (by decide) (by decide)⟩
  | cons b bs =>
    have hb := isAlpha_spec b (hbs b (List.mem_cons_self _ _))
    exact ⟨skipSpace_cons_of_not_space _ _ hb.1,
      scanNumber_matchFail sup w l signed _ _ hb.1 hb.2.1 hb.2.2.1 hb.2.2.2.1⟩

theorem scan_time_twoWordName (pid : Int) (A B rest : List Char) (hA : isLetters A = true)
    (hB : isLetters B = true) :
    scanDirs (parseFormat .text time_format.toList) (twoWordName pid A B rest) =
      ([.str ('(' :: A)], .matchFail) := by
  obtain ⟨hBne, hBl⟩ := isLetters_spec B hB
  cases B with
  | nil => exact absurd rfl hBne
  | cons b bs =>
    have hb := isAlpha_spec b (hBl b (List.mem_cons_self _ _))
    have hbs := scan_after_state true none 0 true bs (' ' :: rest)
      (fun c hc => hBl c (List.mem_cons_of_mem _ hc))
    have hparen : isspace '(' = false := by decide
    rw [format_time]
    simp only [twoWordName, List.cons_append, scanDirs, step, scanNumber_decInt_sup,
      delim_space, skipSpace_space, skipSpace_cons_of_not_space, hparen, hb.1,
      scanString_paren, hA, scanChars_one, hbs.1, hbs.2, addItem, Option.toList,
      List.nil_append, List.cons_append, Bool.false_eq_true, if_false]

theorem scan_stat_twoWordName (pid : Int) (A B rest : List Char) (hA : isLetters A = true)
    (hB : isLetters B = true) :
    scanDirs (parseFormat .text stat_format.toList) (twoWordName pid A B rest) =
      ([], .matchFail) := by
  obtain ⟨hBne, hBl⟩ := isLetters_spec B hB
  cases B with
  | nil => exact absurd rfl hBne
  | cons b bs =>
    have hb := isAlpha_spec b (hBl b (List.mem_cons_self _ _))
    have hbs := scan_after_state false none 0 true bs (' ' :: rest)
      (fun c hc => hBl c (List.mem_cons_of_mem _ hc))
    have hparen : isspace '(' = false := by decide
    rw [format_stat]
    simp only [twoWordName, List.cons_append, scanDirs, step, scanNumber_decInt_sup,
      delim_space, skipSpace_space, skipSpace_cons_of_not_space, hparen, hb.1,
      scanString_paren, hA, scanChars_one, hbs.1, hbs.2, addItem, Option.toList,
      List.nil_append, List.cons_append, if_true]

/-! ## A field that is not a number -/

theorem notNumeric_spec (c : Char) (h : notNumeric c = true) :
    isspace c = false ∧ c.isDigit = false ∧ c ≠ '-' ∧ c ≠ '+' := by
  simpa [notNumeric, and_assoc] using h

theorem scan_time_bad (l : StatLine) (k : Nat) (hk3 : 3 ≤ k) (hk : k ≤ 23) (c : Char)
    (rest : List Char) (hw : isWord l.comm = true) (hs : isspace l.state = false)
    (hutime : l.utime < 2 ^ 64) (hstime : l.stime < 2 ^ 64) (hc : notNumeric c = true) :
    scanDirs (parseFormat .text time_format.toList)
        (unwords (l.fields.take k) ++ ' ' :: c :: rest) =
      (timeItems l k, .matchFail) := by
  obtain ⟨hc1, hc2, hc3, hc4⟩ := notNumeric_spec c hc
  have hfail : ∀ (sup : Bool) (lm : Nat) (sg : Bool),
      scanNumber sup none lm sg (c :: rest) = .matchFail :=
    fun sup lm sg => scanNumber_matchFail sup none lm sg c rest hc1 hc2 hc3 hc4
  rw [format_time]
  interval_cases k <;>
  simp only [StatLine.fields, List.take, unwords, List.append_assoc, List.cons_append,
    List.nil_append, timeItems, Nat.reduceLeDiff, Nat.reduceEqDiff, if_false, if_true,
    scanDirs, step, skipSpace_space, skipSpace_decInt, skipSpace_decNat,
    skipSpace_word, hw, skipSpace_cons_of_not_space, hs, hc1, hfail,
    scanNumber_space, scanNumber_decInt_sup, scanNumber_decNat_sup,
    scanNumber_decNat_ulong, scanString_word, scanChars_one, delim_space, fieldEnd_space,
    hutime, hstime, addItem, Option.toList, Bool.false_eq_true]

theorem read_time_bad (l : StatLine) (k : Nat) (hk3 : 3 ≤ k) (hk : k ≤ 23) (c : Char)
    (rest : List Char) (proc : Int → Option (List Char)) (pid : Int)
    (hproc : proc pid = some (unwords (l.fields.take k) ++ ' ' :: c :: rest))
    (hw : isWord l.comm = true) (hs : isspace l.state = false)
    (hlen : l.comm.length ≤ MAX_NAME)
    (hutime : l.utime < 2 ^ 64) (hstime : l.stime < 2 ^ 64) (hc : notNumeric c = true) :
    read_time_from_pid proc pid =
      some (((if 14 ≤ k then l.utime else 0) + (if 15 ≤ k then l.stime else 0)) % 2 ^ 64) := by
  have hscan := scan_time_bad l k hk3 hk c rest hw hs hutime hstime hc
  simp only [read_time_from_pid, hproc, fscanf, hscan]
  interval_cases k <;>
  simp [timeItems, intArg, natArg, List.get?, EOF, wrap64, allFit, storeFits, time_args,
    c_unsigned_long, hlen]

/-! ## Example lines -/

theorem wordsOk_spec (l : StatLine) (h : l.wordsOk = true) :
    isWord l.comm = true ∧ isspace l.state = false := by
  simpa [StatLine.wordsOk] using h

theorem storedInRange_spec (l : StatLine) (h : l.storedInRange = true) :
    fitsInt l.ppid = true ∧ fitsInt l.pgrp = true ∧ l.utime < 2 ^ 64 ∧ l.stime < 2 ^ 64 ∧
      fitsInt l.nice = true ∧ fitsInt l.num_threads = true ∧ l.starttime < 2 ^ 64 := by
  simpa [StatLine.storedInRange, and_assoc] using h

theorem take_all_fields (l : StatLine) : l.fields.take 24 = l.fields := rfl

/-! ## The claims -/

/-- C1, as stated, fails: a counter of 17 digits is in the range of an unsigned
64-bit integer, but `%16llu` reads only its first 16 digits; on the line
`cpu  10000000000000000 0 0 0 0 0 0 0 0 0` the function returns `10 ^ 15`, not
the sum `10 ^ 16`. -/
theorem read_cpu_tick_wide_field :
    (10 : Nat) ^ 16 < 2 ^ 64 ∧
    cpuLine (10 ^ 16) 0 0 0 0 0 0 0 0 0 = "cpu  10000000000000000 0 0 0 0 0 0 0 0 0".toList ∧
    read_cpu_tick (some (cpuLine (10 ^ 16) 0 0 0 0 0 0 0 0 0)) = some (10 ^ 15) ∧
    read_cpu_tick (some (cpuLine (10 ^ 16) 0 0 0 0 0 0 0 0 0)) ≠
      some (10 ^ 16 + 0 + 0 + 0 + 0 + 0 + 0 + 0 + 0 + 0) := by
  decide

/-- C1, amended: when `/proc/stat` is readable and its first line is `cpu`, two
spaces and ten counters below `10 ^ 16` (at most 16 digits each) written in
decimal with single spaces between them, `read_cpu_tick` returns exactly their
sum. `rest` is what follows the line: nothing, or the line end and further
lines. -/
theorem read_cpu_tick_first_line (v1 v2 v3 v4 v5 v6 v7 v8 v9 v10 : Nat) (rest : List Char)
    (hv : ∀ v ∈ [v1, v2, v3, v4, v5, v6, v7, v8, v9, v10], v < 10 ^ 16)
    (hrest : fieldEnd rest = true) :
    read_cpu_tick (some (cpuLine v1 v2 v3 v4 v5 v6 v7 v8 v9 v10 ++ rest)) =
      some (v1 + v2 + v3 + v4 + v5 + v6 + v7 + v8 + v9 + v10) := by
  have h := read_cpu_take [' ', ' '] rfl v1 v2 v3 v4 v5 v6 v7 v8 v9 v10 10 (le_refl _) rest
    (hv _ (by simp)) (hv _ (by simp)) (hv _ (by simp)) (hv _ (by simp)) (hv _ (by simp))
    (hv _ (by simp)) (hv _ (by simp)) (hv _ (by simp)) (hv _ (by simp)) (hv _ (by simp))
    (by simpa using delim_of_fieldEnd rest hrest)
  rw [cpuLine, h]
  simp only [List.take, List.sum_cons, List.sum_nil, Option.some.injEq]
  omega

/-- Witness of C1 amended: the counters 100, 200, 300, 400, 0, 0, 0, 0, 0, 0 give 1000. -/
theorem read_cpu_tick_first_line_witness :
    read_cpu_tick (some ("cpu  100 200 300 400 0 0 0 0 0 0".toList
      ++ "\ncpu0 100 200 300 400 0 0 0 0 0 0\n".toList)) = some 1000 :=
  read_cpu_tick_first_line 100 200 300 400 0 0 0 0 0 0 _ (by decide) (by decide)

/-- C9: every field is scanned with `%16llu`. For ten counters below `10 ^ 16`
(at most 16 digits each), `read_cpu_tick` on the line `cpu  v1 ... v10` returns
the mathematical sum, which is below `2 ^ 64`, so nothing wraps around. A field
of 17 digits is split over two conversions: on the line whose first counter is
`10 ^ 16` the conversions are assigned `10 ^ 15, 0, 0, ...` and the returned
value is not the sum of the ten written values. -/
theorem read_cpu_tick_width16 :
    (∀ v1 v2 v3 v4 v5 v6 v7 v8 v9 v10 : Nat,
      (∀ v ∈ [v1, v2, v3, v4, v5, v6, v7, v8, v9, v10], v < 10 ^ 16) →
      read_cpu_tick (some (cpuLine v1 v2 v3 v4 v5 v6 v7 v8 v9 v10)) =
          some (v1 + v2 + v3 + v4 + v5 + v6 + v7 + v8 + v9 + v10) ∧
        v1 + v2 + v3 + v4 + v5 + v6 + v7 + v8 + v9 + v10 < 2 ^ 64) ∧
    (∃ v1 v2 v3 v4 v5 v6 v7 v8 v9 v10 : Nat,
      (decNat v1).length = 17 ∧
      (fscanf cpu_format cpu_args (cpuLine v1 v2 v3 v4 v5 v6 v7 v8 v9 v10)).map Scanned.items =
        some ([10 ^ 15, 0, v2, v3, v4, v5, v6, v7, v8, v9].map
          (fun v : Nat => Val.int false 64 (v : Int))) ∧
      read_cpu_tick (some (cpuLine v1 v2 v3 v4 v5 v6 v7 v8 v9 v10)) ≠
        some (v1 + v2 + v3 + v4 + v5 + v6 + v7 + v8 + v9 + v10)) := by
  constructor
  · intro v1 v2 v3 v4 v5 v6 v7 v8 v9 v10 hv
    have h1 := hv v1 (by simp)
    have h2 := hv v2 (by simp)
    have h3 := hv v3 (by simp)
    have h4 := hv v4 (by simp)
    have h5 := hv v5 (by simp)
    have h6 := hv v6 (by simp)
    have h7 := hv v7 (by simp)
    have h8 := hv v8 (by simp)
    have h9 := hv v9 (by simp)
    have h10 := hv v10 (by simp)
    have h := read_cpu_take [' ', ' '] rfl v1 v2 v3 v4 v5 v6 v7 v8 v9 v10 10 (le_refl _) []
      h1 h2 h3 h4 h5 h6 h7 h8 h9 h10 rfl
    rw [List.append_nil] at h
    rw [cpuLine, h]
    simp only [List.take, List.sum_cons, List.sum_nil, Option.some.injEq]
    norm_num at h1 h2 h3 h4 h5 h6 h7 h8 h9 h10 ⊢
    omega
  · exact ⟨10 ^ 16, 1, 2, 3, 4, 5, 6, 7, 8, 9, by decide⟩

/-- Witness of C9: the counters 100, 200, 300, 400, 0, 0, 0, 0, 0, 0. -/
theorem read_cpu_tick_width16_witness :
    read_cpu_tick (some "cpu  100 200 300 400 0 0 0 0 0 0".toList) = some 1000 ∧
      100 + 200 + 300 + 400 + 0 + 0 + 0 + 0 + 0 + 0 < 2 ^ 64 :=
  read_cpu_tick_width16.1 100 200 300 400 0 0 0 0 0 0 (by decide)

/-- C2 is what the code is written to do, and the scan does convert the seven
fields the claim names; but the code gives the `%ld` conversions of nice and
num_threads the addresses of the `int` objects `_nice` and `_threads` (ppid and
pgrp, also `int`, are scanned with `%d`). For every readable stat line of at
least 24 fields separated by single spaces, whose name is a word without white
space, whose state is one character and whose stored fields are in the range of
their C types, the two stores are `long` stores into `int` objects, so the call
of `read_stat_from_pid` is undefined and the six outputs are not guaranteed;
with `long` objects for nice and num_threads every store would fit. -/
theorem read_stat_from_pid_long_into_int (l : StatLine) (tail : List Char)
    (proc : Int → Option (List Char)) (pid : Int) (out : StatOut)
    (hproc : proc pid = some (unwords l.fields ++ tail))
    (hwords : l.wordsOk = true) (hrange : l.storedInRange = true)
    (htail : fieldEnd tail = true) :
    scanDirs (parseFormat .text stat_format.toList) (unwords l.fields ++ tail) =
      ([.int true 32 l.ppid, .int true 32 l.pgrp, .int false 64 l.utime, .int false 64 l.stime,
        .int true 64 l.nice, .int true 64 l.num_threads, .int false 64 l.starttime],
        .complete) ∧
    allFit stat_args
      [.int true 32 l.ppid, .int true 32 l.pgrp, .int false 64 l.utime, .int false 64 l.stime,
        .int true 64 l.nice, .int true 64 l.num_threads, .int false 64 l.starttime] = false ∧
    allFit [c_int, c_int, c_unsigned_long, c_unsigned_long, .integer true 64, .integer true 64,
        c_unsigned_long]
      [.int true 32 l.ppid, .int true 32 l.pgrp, .int false 64 l.utime, .int false 64 l.stime,
        .int true 64 l.nice, .int true 64 l.num_threads, .int false 64 l.starttime] = true ∧
    read_stat_from_pid proc pid out = none := by
  obtain ⟨hw, hs⟩ := wordsOk_spec l hwords
  obtain ⟨h1, h2, h3, h4, h5, h6, h7⟩ := storedInRange_spec l hrange
  rw [← take_all_fields l] at hproc ⊢
  have hscan := scan_stat_take l 24 (le_refl _) tail hw hs h1 h2 h3 h4 h5 h6 h7
    (by simpa using htail)
  have h := read_stat_take l 24 (le_refl _) tail proc pid out hproc hw hs h1 h2 h3 h4 h5 h6 h7
    (by simpa using htail)
  refine ⟨?_, by rfl, by rfl, ?_⟩
  · simpa [statItems] using hscan
  · simpa using h

/-- Witness of C2: on the line with ppid 1, pgrp 100, utime 10, stime 20, nice 5,
three threads and start time 99999 the scan converts these values and the call
is undefined. -/
theorem read_stat_from_pid_long_into_int_witness :
    read_stat_from_pid
        (procFile (some
          "4242 (cat) S 1 100 100 0 -1 4194304 0 0 0 0 10 20 0 0 20 5 3 0 99999 0 0 0 0\n".toList))
        4242 ⟨7, 7, 7, 7, 7, 7⟩ = none :=
  (read_stat_from_pid_long_into_int statExample " 0 0\n".toList _ 4242 ⟨7, 7, 7, 7, 7, 7⟩
    (by decide) (by decide) (by decide) (by decide)).2.2.2

set_option maxRecDepth 1000000 in
/-- C3, as stated, fails on stat lines of 24 fields whose name has no white
space: with a name of 129 characters (or of 1000) the `%s` item does not fit the
buffer `char name[MAX_NAME + 1]`, and with utime `2 ^ 64` the `%lu` item does
not fit an `unsigned long`; in these cases the call is undefined and no sum is
returned. -/
theorem read_time_from_pid_undefined :
    ({ statExample with comm := List.replicate 129 'x' } : StatLine).wordsOk = true ∧
    read_time_from_pid (procFile (some (unwords
      ({ statExample with comm := List.replicate 129 'x' } : StatLine).fields))) 4242 = none ∧
    read_time_from_pid (procFile (some (unwords
      ({ statExample with comm := List.replicate 1000 'x' } : StatLine).fields))) 4242 = none ∧
    ({ statExample with utime := 2 ^ 64 } : StatLine).wordsOk = true ∧
    read_time_from_pid (procFile (some (unwords
      ({ statExample with utime := 2 ^ 64 } : StatLine).fields))) 4242 = none := by
  decide

/-- C3, amended: for a readable stat line of at least 24 fields separated by
single spaces, whose name is a word without white space of at most `MAX_NAME`
(128) characters, whose state is one character and whose utime and stime are
below `2 ^ 64`, `read_time_from_pid` returns the sum of field 14 (utime) and
field 15 (stime), an `unsigned long` sum, so modulo `2 ^ 64`. -/
theorem read_time_from_pid_fields (l : StatLine) (tail : List Char)
    (proc : Int → Option (List Char)) (pid : Int)
    (hproc : proc pid = some (unwords l.fields ++ tail))
    (hwords : l.wordsOk = true) (hname : l.comm.length ≤ MAX_NAME)
    (hutime : l.utime < 2 ^ 64) (hstime : l.stime < 2 ^ 64)
    (htail : fieldEnd tail = true) :
    read_time_from_pid proc pid = some ((l.utime + l.stime) % 2 ^ 64) := by
  obtain ⟨hw, hs⟩ := wordsOk_spec l hwords
  rw [← take_all_fields l] at hproc
  have h := read_time_take l 24 (le_refl _) tail proc pid hproc hw hs hutime hstime
    (by simpa using htail)
  have hlen : ¬ MAX_NAME < l.comm.length := by omega
  simpa [hlen] using h

/-- Witness of C3 amended: utime 50 and stime 75 give 125. -/
theorem read_time_from_pid_fields_witness :
    read_time_from_pid
        (procFile (some
          "4242 (cat) S 1 100 100 0 -1 4194304 0 0 0 0 50 75 0 0 20 5 3 0 99999 0 0 0 0\n".toList))
        4242 = some 125 :=
  read_time_from_pid_fields { statExample with utime := 50, stime := 75 } " 0 0\n".toList _ 4242
    (by decide) (by decide) (by decide) (by decide) (by decide) (by decide)

/-- C4, as stated, fails: on a line that ends after the 4th field the scan
assigns ppid before the input ends, `fscanf` returns 1 and not `EOF`, and
`read_stat_from_pid` returns true with ppid = field 4; and when the file is
missing the six objects are not zeroed but left as they were. -/
theorem read_stat_from_pid_four_fields :
    read_stat_from_pid (procFile (some "4242 (cat) S 1".toList)) 4242 ⟨0, 0, 0, 0, 0, 0⟩ =
      some (true, ⟨1, 0, 0, 0, 0, 0⟩) ∧
    read_stat_from_pid (procFile none) 4242 ⟨7, 7, 7, 7, 7, 7⟩ =
      some (false, ⟨7, 7, 7, 7, 7, 7⟩) := by
  decide

/-- C4, amended: `read_stat_from_pid` returns false, leaving the six objects as
they were, when the file is missing, and when the content is only the first
`k ≤ 3` fields of a stat line (single spaces between the fields, pid written in
decimal, name a non-empty word without white space, state one character that is
not white space): the scan reports `EOF` with nothing assigned. When the content
is the first `k` fields of such a line with `4 ≤ k ≤ 18`, the numeric fields
written in decimal, ppid and pgrp in the range of `int` and utime and stime in
the range of `unsigned long`, it returns true and writes ppid = field 4, pgrp =
field 5 and time = utime + stime (modulo `2 ^ 64`) from the fields among the
first `k`, and 0 for every field the scan did not reach. -/
theorem read_stat_from_pid_short (proc : Int → Option (List Char)) (pid : Int)
    (out : StatOut) :
    (proc pid = none → read_stat_from_pid proc pid out = some (false, out)) ∧
    (∀ (l : StatLine) (k : Nat), k ≤ 3 → l.wordsOk = true →
      proc pid = some (unwords (l.fields.take k)) →
      read_stat_from_pid proc pid out = some (false, out)) ∧
    (∀ (l : StatLine) (k : Nat), 4 ≤ k → k ≤ 18 → l.wordsOk = true →
      fitsInt l.ppid = true → fitsInt l.pgrp = true → l.utime < 2 ^ 64 → l.stime < 2 ^ 64 →
      proc pid = some (unwords (l.fields.take k)) →
      read_stat_from_pid proc pid out =
        some (true,
          { ppid := l.ppid
            pgrp := if 5 ≤ k then l.pgrp else 0
            time := ((if 14 ≤ k then l.utime else 0) + (if 15 ≤ k then l.stime else 0)) % 2 ^ 64
            nice := 0
            threads := 0
            starttime := 0 })) := by
  refine ⟨?_, ?_, ?_⟩
  · intro hnone
    simp only [read_stat_from_pid, hnone]
  · intro l k hk hwords hproc
    obtain ⟨hw, hs⟩ := wordsOk_spec l hwords
    have htake : l.fields.take k =
        (StatLine.fields
          { l with ppid := 0, pgrp := 0, utime := 0, stime := 0, nice := 0, num_threads := 0,
                   starttime := 0 }).take k := by
      interval_cases k <;> rfl
    rw [htake, ← List.append_nil (unwords _)] at hproc
    have h24 : k ≠ 24 := by omega
    have h19 : ¬ 19 ≤ k := by omega
    have hz : fitsInt 0 = true := by decide
    have hn : (0 : Nat) < 2 ^ 64 := by norm_num
    have h := read_stat_take _ k (by omega) [] proc pid out hproc hw hs hz hz hn hn hz hz hn
      (by simp only [h24, if_false])
    simpa only [h19, hk, if_false, if_true] using h
  · intro l k hk4 hk hwords hppid hpgrp hutime hstime hproc
    obtain ⟨hw, hs⟩ := wordsOk_spec l hwords
    have htake : l.fields.take k =
        (StatLine.fields { l with nice := 0, num_threads := 0, starttime := 0 }).take k := by
      interval_cases k <;> rfl
    rw [htake, ← List.append_nil (unwords _)] at hproc
    have h24 : k ≠ 24 := by omega
    have h19 : ¬ 19 ≤ k := by omega
    have h3 : ¬ k ≤ 3 := by omega
    have hz : fitsInt 0 = true := by decide
    have hn : (0 : Nat) < 2 ^ 64 := by norm_num
    have h := read_stat_take _ k (by omega) [] proc pid out hproc hw hs hppid hpgrp hutime
      hstime hz hz hn (by simp only [h24, if_false])
    simpa only [h19, h3, if_false] using h

/-- Witness of C4 amended: the first three fields give false and leave the
objects as they were; the first five fields give true with ppid and pgrp. -/
theorem read_stat_from_pid_short_witness :
    read_stat_from_pid (procFile (some "4242 (cat) S".toList)) 4242 ⟨7, 7, 7, 7, 7, 7⟩ =
      some (false, ⟨7, 7, 7, 7, 7, 7⟩) ∧
    read_stat_from_pid (procFile (some "4242 (cat) S 1 100".toList)) 4242 ⟨7, 7, 7, 7, 7, 7⟩ =
      some (true, ⟨1, 100, 0, 0, 0, 0⟩) :=
  ⟨(read_stat_from_pid_short (procFile (some "4242 (cat) S".toList)) 4242
      ⟨7, 7, 7, 7, 7, 7⟩).2.1 statExample 3 (by decide) (by decide) (by decide),
    (read_stat_from_pid_short (procFile (some "4242 (cat) S 1 100".toList)) 4242
      ⟨7, 7, 7, 7, 7, 7⟩).2.2 statExample 5 (by decide) (by decide) (by decide) (by decide)
      (by decide) (by decide) (by decide) (by decide)⟩

/-- C5, as stated, fails: on a line that ends right after the 14th field, so
that utime is 50 and stime is absent, `read_time_from_pid` returns 50, not 0. -/
theorem read_time_from_pid_fourteen_fields :
    read_time_from_pid
      (procFile (some "4242 (cat) S 1 100 100 0 -1 4194304 0 0 0 0 50".toList)) 4242 =
      some 50 := by
  decide

/-- C5, amended: `read_time_from_pid` returns 0 when the file is missing, and
when the content is cut before the 14th field of a stat line (single spaces
between the fields, pid and the numeric fields written in decimal, name a
non-empty word without white space of at most `MAX_NAME` characters, state one
character that is not white space): the content is only the first `k ≤ 13`
fields of such a line, or, for `3 ≤ k ≤ 13`, these `k` fields, a space and a
character `c` that is neither white space nor a digit nor a sign. When the
content is the first 14 fields of such a line, with utime in the range of
`unsigned long`, alone or followed by a space and such a character, it returns
utime. -/
theorem read_time_from_pid_short (proc : Int → Option (List Char)) (pid : Int) :
    (proc pid = none → read_time_from_pid proc pid = some 0) ∧
    (∀ (l : StatLine) (k : Nat), k ≤ 13 → l.wordsOk = true → l.comm.length ≤ MAX_NAME →
      proc pid = some (unwords (l.fields.take k)) →
      read_time_from_pid proc pid = some 0) ∧
    (∀ (l : StatLine) (k : Nat) (c : Char) (rest : List Char), 3 ≤ k → k ≤ 13 →
      l.wordsOk = true → l.comm.length ≤ MAX_NAME → notNumeric c = true →
      proc pid = some (unwords (l.fields.take k) ++ ' ' :: c :: rest) →
      read_time_from_pid proc pid = some 0) ∧
    (∀ (l : StatLine), l.wordsOk = true → l.comm.length ≤ MAX_NAME → l.utime < 2 ^ 64 →
      proc pid = some (unwords (l.fields.take 14)) →
      read_time_from_pid proc pid = some l.utime) ∧
    (∀ (l : StatLine) (c : Char) (rest : List Char), l.wordsOk = true →
      l.comm.length ≤ MAX_NAME → l.utime < 2 ^ 64 → notNumeric c = true →
      proc pid = some (unwords (l.fields.take 14) ++ ' ' :: c :: rest) →
      read_time_from_pid proc pid = some l.utime) := by
  refine ⟨?_, ?_, ?_, ?_, ?_⟩
  · intro hnone
    simp only [read_time_from_pid, hnone]
  · intro l k hk hwords hname hproc
    obtain ⟨hw, hs⟩ := wordsOk_spec l hwords
    have htake : l.fields.take k =
        ({ l with utime := 0, stime := 0 } : StatLine).fields.take k := by
      interval_cases k <;> rfl
    rw [htake, ← List.append_nil (unwords _)] at hproc
    have h24 : k ≠ 24 := by omega
    have hn : (0 : Nat) < 2 ^ 64 := by norm_num
    have h := read_time_take _ k (by omega) [] proc pid hproc hw hs hn hn
      (by simp only [h24, if_false])
    have hlen : ¬ MAX_NAME < l.comm.length := by omega
    have h14 : ¬ 14 ≤ k := by omega
    have h15 : ¬ 15 ≤ k := by omega
    rw [h]
    simp [hlen, h14, h15]
  · intro l k c rest hk3 hk hwords hname hc hproc
    obtain ⟨hw, hs⟩ := wordsOk_spec l hwords
    have htake : l.fields.take k =
        ({ l with utime := 0, stime := 0 } : StatLine).fields.take k := by
      interval_cases k <;> rfl
    rw [htake] at hproc
    have hn : (0 : Nat) < 2 ^ 64 := by norm_num
    have h := read_time_bad _ k hk3 (by omega) c rest proc pid hproc hw hs hname hn hn hc
    have h14 : ¬ 14 ≤ k := by omega
    have h15 : ¬ 15 ≤ k := by omega
    rw [h]
    simp [h14, h15]
  · intro l hwords hname hutime hproc
    obtain ⟨hw, hs⟩ := wordsOk_spec l hwords
    have htake : l.fields.take 14 = ({ l with stime := 0 } : StatLine).fields.take 14 := rfl
    rw [htake, ← List.append_nil (unwords _)] at hproc
    have hn : (0 : Nat) < 2 ^ 64 := by norm_num
    have h := read_time_take _ 14 (by omega) [] proc pid hproc hw hs hutime hn (by simp)
    have hlen : ¬ MAX_NAME < l.comm.length := by omega
    rw [h]
    simp only [hlen, and_false, if_false, Nat.reduceLeDiff, if_true, Nat.add_zero,
      Option.some.injEq]
    exact Nat.mod_eq_of_lt hutime
  · intro l c rest hwords hname hutime hc hproc
    obtain ⟨hw, hs⟩ := wordsOk_spec l hwords
    have htake : l.fields.take 14 = ({ l with stime := 0 } : StatLine).fields.take 14 := rfl
    rw [htake] at hproc
    have hn : (0 : Nat) < 2 ^ 64 := by norm_num
    have h := read_time_bad _ 14 (by omega) (by omega) c rest proc pid hproc hw hs hname hutime
      hn hc
    rw [h]
    simp only [Nat.reduceLeDiff, if_false, if_true, Nat.add_zero, Option.some.injEq]
    exact Nat.mod_eq_of_lt hutime

/-- Witness of C5 amended: a line that ends after the 13th field gives 0, a line
that ends after the 14th field gives utime. -/
theorem read_time_from_pid_short_witness :
    read_time_from_pid
      (procFile (some "4242 (cat) S 1 100 100 0 -1 4194304 0 0 0 0".toList)) 4242 = some 0 ∧
    read_time_from_pid
      (procFile (some "4242 (cat) S 1 100 100 0 -1 4194304 0 0 0 0 10".toList)) 4242 =
        some 10 :=
  ⟨(read_time_from_pid_short
      (procFile (some "4242 (cat) S 1 100 100 0 -1 4194304 0 0 0 0".toList)) 4242).2.1
      statExample 13 (by decide) (by decide) (by decide) (by decide),
    (read_time_from_pid_short
      (procFile (some "4242 (cat) S 1 100 100 0 -1 4194304 0 0 0 0 10".toList)) 4242).2.2.2.1
      statExample (by decide) (by decide) (by decide) (by decide)⟩

/-- C6, as stated, fails: on the content `cpu  1 2 3` three fields are assigned
before the input ends, `fscanf` returns 3 and not `EOF`, and `read_cpu_tick`
returns 6; on the per-core line `cpu0 1 2 3 4 5 6 7 8 9 10` the white space of
the format matches no character, the ten conversions read 0, 1, ..., 9 and the
function returns 45. -/
theorem read_cpu_tick_partial_pattern :
    read_cpu_tick (some "cpu  1 2 3".toList) = some 6 ∧
    read_cpu_tick (some "cpu0 1 2 3 4 5 6 7 8 9 10".toList) = some 45 := by
  decide

/-- C6, amended: `read_cpu_tick` returns 0 when `/proc/stat` cannot be opened,
when its content does not start with `cpu`, and when what follows `cpu` and any
white space is the end of the content or a character that starts no number (no
field is assigned). When the content is `cpu`, any white space `ws` (two
spaces, or none as in `cpu0`) and the first `k ≤ 10` of ten counters (each below
`10 ^ 16`), it returns the sum of these `k` counters; after ten counters the
content may go on with `tail`. -/
theorem read_cpu_tick_absent_pattern :
    read_cpu_tick none = some 0 ∧
    (∀ inp : List Char, inp.take 3 ≠ ['c', 'p', 'u'] → read_cpu_tick (some inp) = some 0) ∧
    (∀ rest : List Char, numberStart (skipSpace rest) = false →
      read_cpu_tick (some ('c' :: 'p' :: 'u' :: rest)) = some 0) ∧
    (∀ (ws tail : List Char) (v1 v2 v3 v4 v5 v6 v7 v8 v9 v10 k : Nat),
      ws.all isspace = true → k ≤ 10 →
      (∀ v ∈ [v1, v2, v3, v4, v5, v6, v7, v8, v9, v10], v < 10 ^ 16) →
      (if k = 10 then delim tail = true else tail = []) →
      read_cpu_tick
          (some (cpuLineTake ws k [v1, v2, v3, v4, v5, v6, v7, v8, v9, v10] ++ tail)) =
        some (([v1, v2, v3, v4, v5, v6, v7, v8, v9, v10].take k).sum)) := by
  refine ⟨rfl, ?_, ?_, ?_⟩
  · intro inp hne
    simp only [read_cpu_tick, fscanf, format_cpu]
    rcases inp with _ | ⟨a, _ | ⟨b, _ | ⟨c, rest⟩⟩⟩
    · simp [scanDirs, step, addItem, intArg, natArg, EOF, wrap64, allFit]
    · by_cases ha : a = 'c' <;> simp [scanDirs, step, addItem, intArg, natArg, EOF, wrap64, allFit, ha]
    · by_cases ha : a = 'c' <;> by_cases hb : b = 'p' <;>
        simp [scanDirs, step, addItem, intArg, natArg, EOF, wrap64, allFit, ha, hb]
    · by_cases ha : a = 'c' <;> by_cases hb : b = 'p' <;> by_cases hc : c = 'u' <;>
        simp [scanDirs, step, addItem, intArg, natArg, EOF, wrap64, allFit, ha, hb, hc] at hne ⊢
  · intro rest hstart
    simp only [read_cpu_tick, fscanf, format_cpu, scanDirs, step, if_true, skipSpace_idem]
    have hnum : scanNumber false (some 16) 2 false (skipSpace rest) = .inputFail ∨
        scanNumber false (some 16) 2 false (skipSpace rest) = .matchFail := by
      cases hr : skipSpace rest with
      | nil => exact Or.inl rfl
      | cons c cs =>
        have hsp := skipSpace_head rest c cs hr
        rw [hr] at hstart
        simp only [numberStart, Bool.or_eq_false_iff, decide_eq_false_iff_not] at hstart
        exact Or.inr (scanNumber_matchFail _ _ _ _ c cs hsp hstart.1.1 hstart.1.2 hstart.2)
    rcases hnum with h | h <;> simp [h, addItem, intArg, natArg, EOF, wrap64, allFit]
  · intro ws tail v1 v2 v3 v4 v5 v6 v7 v8 v9 v10 k hws hk hv htail
    exact read_cpu_take ws hws v1 v2 v3 v4 v5 v6 v7 v8 v9 v10 k hk tail
      (hv _ (by simp)) (hv _ (by simp)) (hv _ (by simp)) (hv _ (by simp)) (hv _ (by simp))
      (hv _ (by simp)) (hv _ (by simp)) (hv _ (by simp)) (hv _ (by simp)) (hv _ (by simp))
      htail

/-- Witness of C6 amended: a content that does not start with `cpu` gives 0, the
content `cpu  1 2 3` gives 6, and the per-core line `cpu0 1 2 3 4 5 6 7 8 9 10`
gives 0 + 1 + ... + 9 = 45. -/
theorem read_cpu_tick_absent_pattern_witness :
    read_cpu_tick (some "intr 1 2 3".toList) = some 0 ∧
      read_cpu_tick (some "cpu  1 2 3".toList) = some 6 ∧
      read_cpu_tick (some "cpu0 1 2 3 4 5 6 7 8 9 10".toList) = some 45 :=
  ⟨read_cpu_tick_absent_pattern.2.1 "intr 1 2 3".toList (by decide),
    read_cpu_tick_absent_pattern.2.2.2 "  ".toList [] 1 2 3 0 0 0 0 0 0 0 3 (by decide)
      (by decide) (by decide) (by decide),
    read_cpu_tick_absent_pattern.2.2.2 [] " 10".toList 0 1 2 3 4 5 6 7 8 9 10 (by decide)
      (by decide) (by decide) (by decide)⟩

/-- C7, as stated, fails: for the error value -1 of the query the conversion to
`unsigned int` gives 4294967295, not 0. -/
theorem num_cores_error_value : num_cores (-1) = 4294967295 ∧ num_cores (-1) ≠ 0 := by
  decide

/-- C7, amended: for every negative result `q` of the online-processor query,
`num_cores` returns `q` modulo `2 ^ 32`, the conversion to `unsigned int`: it is
`q + 2 ^ 32` and not 0 when `-2 ^ 32 < q`, so it is 4294967295 for the error
value `-1`. -/
theorem num_cores_negative (q : Int) (hneg : q < 0) :
    (num_cores q : Int) = q % 2 ^ 32 ∧
      (-(2 : Int) ^ 32 < q → (num_cores q : Int) = q + 2 ^ 32 ∧ num_cores q ≠ 0) := by
  have hpos : (0 : Int) ≤ q % 2 ^ 32 := Int.emod_nonneg _ (by norm_num)
  have hcast : (num_cores q : Int) = q % 2 ^ 32 := by
    simp only [num_cores]; exact Int.toNat_of_nonneg hpos
  refine ⟨hcast, ?_⟩
  intro hlow
  have hq : (num_cores q : Int) = q + 2 ^ 32 := by
    rw [hcast]; norm_num at hlow ⊢; omega
  refine ⟨hq, ?_⟩
  intro h0
  rw [h0] at hq
  norm_num at hlow hq
  omega

/-- Witness of C7 amended: the error value -1. -/
theorem num_cores_negative_witness :
    (num_cores (-1) : Int) = -1 % 2 ^ 32 ∧
      (-(2 : Int) ^ 32 < -1 → (num_cores (-1) : Int) = -1 + 2 ^ 32 ∧ num_cores (-1) ≠ 0) :=
  num_cores_negative (-1) (by decide)

set_option maxRecDepth 1000000 in
/-- C8, as stated, fails for `read_time_from_pid` when the first word of the name
is long: with 128 letters (or with 1000) the `%s` item `(aaa...a` has 129
characters (or 1001) and does not fit the buffer `char name[MAX_NAME + 1]`, so
the call is undefined and does not return 0. -/
theorem read_time_from_pid_name_overflow :
    isLetters (List.replicate 128 'a') = true ∧ isLetters ['b'] = true ∧
    read_time_from_pid
      (procFile (some (twoWordName 4242 (List.replicate 128 'a') ['b'] "S 1 100".toList)))
      4242 = none ∧
    read_time_from_pid
      (procFile (some (twoWordName 4242 (List.replicate 1000 'a') ['b'] "S 1 100".toList)))
      4242 = none := by
  decide

/-- C8, amended: for every content `<pid> (<A> <B>) <rest>` where `<pid>` is a
decimal integer, `<A>` and `<B>` are non-empty words of letters only and
`<rest>` is arbitrary, the parse is desynchronised: `read_stat_from_pid` returns
true and writes 0 to ppid, pgrp, time, nice, threads and starttime, and, when
`(<A>` has at most `MAX_NAME` (128) characters, `read_time_from_pid` returns 0
whatever utime and stime are in `<rest>`. -/
theorem two_word_name_desynchronised (pid : Int) (A B rest : List Char)
    (proc : Int → Option (List Char)) (p : Int) (out : StatOut)
    (hproc : proc p = some (twoWordName pid A B rest))
    (hA : isLetters A = true) (hB : isLetters B = true) :
    (A.length + 1 ≤ MAX_NAME → read_time_from_pid proc p = some 0) ∧
    read_stat_from_pid proc p out = some (true, ⟨0, 0, 0, 0, 0, 0⟩) := by
  constructor
  · intro hlen
    simp only [read_time_from_pid, hproc, fscanf, scan_time_twoWordName pid A B rest hA hB]
    simp [intArg, natArg, List.get?, EOF, wrap64, allFit, storeFits, time_args, hlen]
  · simp only [read_stat_from_pid, hproc, fscanf, scan_stat_twoWordName pid A B rest hA hB]
    simp [intArg, natArg, List.get?, EOF, wrap64, allFit]

/-- Witness of C8 amended: the name `(Web Content)` before utime 50 and stime 75. -/
theorem two_word_name_desynchronised_witness :
    (3 + 1 ≤ MAX_NAME →
      read_time_from_pid (procFile (some
        "4242 (Web Content) S 1 100 100 0 -1 4194304 0 0 0 0 50 75 0 0 20 5 3 0 99999 0 0".toList))
        4242 = some 0) ∧
    read_stat_from_pid (procFile (some
        "4242 (Web Content) S 1 100 100 0 -1 4194304 0 0 0 0 50 75 0 0 20 5 3 0 99999 0 0".toList))
        4242 ⟨7, 7, 7, 7, 7, 7⟩ = some (true, ⟨0, 0, 0, 0, 0, 0⟩) :=
  two_word_name_desynchronised 4242 "Web".toList "Content".toList
    "S 1 100 100 0 -1 4194304 0 0 0 0 50 75 0 0 20 5 3 0 99999 0 0".toList _ 4242 _
    (by decide) (by decide) (by decide)

end Cpuinfo
